import Mathlib

/-!
Shallow embedding of the AI-Powered-Trip-Planner core pipeline
(filter -> score -> plan), translated from the repository sources
src/city.py (catalog filter), src/relevance.py (relevance scorer) and
src/planner.py (plan builder), together with theorems settling the
behavioural claims about those components.

Modelling conventions:
* calendar dates are day numbers (Int); a parsed pandas timestamp column
  entry is Option Int, with none standing for NaT (an unparsable cell);
* Python floats are modelled as rationals;
* Python str.strip / str.lower are modelled on the underlying character
  lists (pyStrip / pyLower), which matches Python for ASCII data;
* a pandas DataFrame column access on a missing column raises KeyError;
  the Catalog structure records which columns the catalog CSV has, and the
  filter returns Except FilterError to model that exception;
* Python list.sort and pandas sort_values are modelled with the stable
  List.insertionSort.
-/

namespace TripPlanner

/-- Python str.lower for ASCII strings (Char.toLower lowercases ASCII). -/
def pyLower (s : String) : String := String.mk (s.data.map Char.toLower)

/-- Whitespace characters stripped by Python str.strip (ASCII subset). -/
def isSpaceChar (c : Char) : Bool :=
  c = ' ' || c = '\t' || c = '\n' || c = '\r' || c = '\x0b' || c = '\x0c'

/-- Python str.strip: remove leading and trailing whitespace. -/
def pyStrip (s : String) : String :=
  String.mk (((s.data.dropWhile isSpaceChar).reverse.dropWhile isSpaceChar).reverse)

/-- Python round(x, 4) on the rational model: round to 4 decimal places. -/
def round4 (q : ℚ) : ℚ := (round (q * 10000) : ℤ) / 10000

/-- Membership of a string in a list of strings (Python `in`, pandas isin). -/
def memStr : List String → String → Bool
  | [], _ => false
  | c :: t, s => if s = c then true else memStr t s

/-! ## relevance.py -/

/-- The fixed category enumeration of relevance.py (CATEGORIES). -/
def CATEGORIES : List String :=
  ["religious_spiritual", "literature_poetry", "art_exhibition",
   "dance_performing", "film_media", "comedy_standup", "music_classical_folk",
   "music_contemporary", "nightlife", "celebrity_event", "food_culinary",
   "fashion_lifestyle", "wellness_mental", "nature_outdoor", "education_workshop",
   "technology_innovation", "hackathon_coding", "startup_business",
   "academic_conference", "roadshow", "airshow_aviation", "auto_motor",
   "gaming_esports", "science_space", "sports_fitness", "adventure_extreme",
   "community_social", "government_public", "trade_expo",
   "sunset_view", "sunrise_view", "seaside_beach", "mountain_climbing",
   "boating_cruise", "wildlife_safari", "desert_experience", "snow_activity",
   "heritage_walk", "street_festival", "local_fair", "lake_activity",
   "forest_trail", "island_experience", "river_ghat"]

/-- The tourism subset of relevance.py (TOURISM_CATEGORIES). -/
def TOURISM_CATEGORIES : List String :=
  ["seaside_beach", "cultural_heritage", "heritage_walk",
   "sunset_view", "sunrise_view", "mountain_climbing",
   "boating_cruise", "lake_activity", "island_experience",
   "river_ghat", "desert_experience", "snow_activity",
   "wildlife_safari", "forest_trail"]

/-- The additive tourism bias constant (TOURISM_BIAS = 0.4). -/
def TOURISM_BIAS : ℚ := 2 / 5

/-- dict.get(cat, 0) / row.get(cat, 0) on an association list. -/
def getVal : List (String × ℚ) → String → ℚ
  | [], _ => 0
  | p :: t, c => if p.1 = c then p.2 else getVal t c

/-- The tourism test of compute_relevance:
any(event_row.get(cat, 0) == 1 for cat in TOURISM_CATEGORIES). -/
def hasTourism : List String → List (String × ℚ) → Bool
  | [], _ => false
  | c :: t, row => if getVal row c = 1 then true else hasTourism t row

/-- compute_relevance of relevance.py: weighted partial-match similarity of
the user interest vector against the event category row, with additive
tourism bias, clamped to [0, 1] and rounded to 4 decimals. -/
def compute_relevance (user_vector event_row : List (String × ℚ)) : ℚ :=
  let acc := CATEGORIES.foldl (fun (acc : ℚ × ℚ) cat =>
    let user_weight := getVal user_vector cat
    let event_value := getVal event_row cat
    if 0 < event_value ∧ 0 < user_weight then
      (acc.1 + user_weight * event_value, acc.2 + user_weight)
    else acc) (0, 0)
  let score := if 0 < acc.2 then acc.1 / acc.2 else 0
  let score := if hasTourism TOURISM_CATEGORIES event_row then score + TOURISM_BIAS else score
  round4 (max 0 (min 1 score))

/-- The scoring formula exactly as the specification words it: accumulate
score += user_weight and weight_sum += user_weight over the categories whose
event value is 1 (active) and whose user weight is positive; everything else
as in compute_relevance.  Used to compare the code against the spec. -/
def spec_relevance (user_vector event_row : List (String × ℚ)) : ℚ :=
  let acc := CATEGORIES.foldl (fun (acc : ℚ × ℚ) cat =>
    let user_weight := getVal user_vector cat
    if getVal event_row cat = 1 ∧ 0 < user_weight then
      (acc.1 + user_weight, acc.2 + user_weight)
    else acc) (0, 0)
  let score := if 0 < acc.2 then acc.1 / acc.2 else 0
  let score := if hasTourism TOURISM_CATEGORIES event_row then score + TOURISM_BIAS else score
  round4 (max 0 (min 1 score))

/-! ## city.py -/

/-- A row of the catalog CSV read by city.py, with the columns the filter
touches.  Date cells are recorded as their parse result
(pd.to_datetime with errors="coerce"): none models NaT. -/
structure CatRow where
  name : String
  city : String
  start_date : Option Int
  end_date : Option Int
  start_time : Option Int
deriving DecidableEq

/-- The catalog CSV: which of the columns used by the pipeline are present
in the header, plus the data rows. -/
structure Catalog where
  hasName : Bool
  hasCity : Bool
  hasStartDate : Bool
  hasEndDate : Bool
  hasStartTime : Bool
  rows : List CatRow
deriving DecidableEq

/-- The exception raised on access to a missing DataFrame column. -/
inductive FilterError where
  | keyError (col : String)
deriving DecidableEq

/-- A row of the filtered output: city stripped, dates parsed. -/
structure FRow where
  name : String
  city : String
  start_date : Int
  end_date : Int
  start_time : Option Int
deriving DecidableEq

/-- City-name normalization of the requested list:
[c.strip().lower() for c in cities if c and c.strip()]. -/
def normCities (cities : List String) : List String :=
  (cities.filter (fun c => !(pyStrip c = ""))).map (fun c => pyLower (pyStrip c))

/-- Strict character-list comparison (lexicographic by code point). -/
def listLT : List Char → List Char → Bool
  | [], [] => false
  | [], _ :: _ => true
  | _ :: _, [] => false
  | a :: as, b :: bs =>
    if a.toNat < b.toNat then true
    else if b.toNat < a.toNat then false
    else listLT as bs

/-- Ordering on optional start times with nulls last (na_position="last"). -/
def timeLE : Option Int → Option Int → Bool
  | none, none => true
  | none, some _ => false
  | some _, none => true
  | some a, some b => a ≤ b

/-- The sort key of city.py: sort_values(by=["city", "start_date", "start_time"],
na_position="last"). -/
def frowLE (a b : FRow) : Bool :=
  if listLT a.city.data b.city.data then true
  else if listLT b.city.data a.city.data then false
  else if a.start_date < b.start_date then true
  else if b.start_date < a.start_date then false
  else timeLE a.start_time b.start_time

instance frowRelDecidable : DecidableRel (fun a b : FRow => frowLE a b = true) :=
  fun a b => instDecidableEqBool (frowLE a b) true

/-- The stable ordering step of city.py. -/
def sortFRows (l : List FRow) : List FRow :=
  List.insertionSort (fun a b => frowLE a b = true) l

/-- filter_events_by_city_and_date of city.py, factored over the already
normalized requested-city list.  Column accesses of the pandas code are
modelled in source order: df["city"] is touched (and stripped) before the
empty-selection early return; the date columns are touched only after it;
the final sort touches df["start_time"]. -/
def filterCore (catalog : Catalog) (cities_norm : List String)
    (trip_start trip_end : Int) : Except FilterError (List FRow) :=
  if catalog.hasCity = false then .error (.keyError "city") else
  let rows1 := catalog.rows.map (fun r => { r with city := pyStrip r.city })
  if cities_norm = [] then .ok [] else
  if catalog.hasStartDate = false then .error (.keyError "start_date") else
  if catalog.hasEndDate = false then .error (.keyError "end_date") else
  let rows2 := rows1.filterMap (fun r =>
    match r.start_date, r.end_date with
    | some s, some e => some (⟨r.name, r.city, s, e, r.start_time⟩ : FRow)
    | _, _ => none)
  let rows3 := rows2.filter (fun r => memStr cities_norm (pyLower r.city))
  let rows4 := rows3.filter (fun r =>
    decide (r.start_date ≤ trip_end) && decide (trip_start ≤ r.end_date))
  if catalog.hasStartTime = false then .error (.keyError "start_time") else
  .ok (sortFRows rows4)

/-- filter_events_by_city_and_date of city.py: filter the catalog to the
requested cities and to events whose date interval overlaps the trip
window. -/
def filter_events_by_city_and_date (catalog : Catalog) (cities : List String)
    (trip_start trip_end : Int) : Except FilterError (List FRow) :=
  filterCore catalog (normCities cities) trip_start trip_end

/-! ## planner.py -/

/-- FLEXIBLE_KEYWORDS of planner.py. -/
def FLEXIBLE_KEYWORDS : List String := ["explore", "attractions"]

/-- W_RELEVANCE of planner.py. -/
def W_RELEVANCE : ℚ := 1 / 2

/-- W_DENSITY of planner.py. -/
def W_DENSITY : ℚ := 1 / 2

/-- Substring containment on character lists (Python `sub in s`). -/
def listContainsSub (p : List Char) : List Char → Bool
  | [] => p.isEmpty
  | c :: t => List.isPrefixOf p (c :: t) || listContainsSub p t

/-- Python substring test `sub in s`. -/
def strContainsSub (s sub : String) : Bool := listContainsSub sub.data s.data

/-- is_flexible_event of planner.py: the lowercased event name contains every
keyword of FLEXIBLE_KEYWORDS as a substring. -/
def is_flexible_event (event_name : String) : Bool :=
  FLEXIBLE_KEYWORDS.all (fun k => strContainsSub (pyLower event_name) k)

/-- event_duration of planner.py (inclusive day count). -/
def event_duration (start_date end_date : Int) : Int := end_date - start_date + 1

/-- A row of final.csv as read by planner.py.  city is none for a NaN cell;
date cells record their pd.to_datetime parse result (none = NaT). -/
structure SRow where
  event_name : String
  city : Option String
  start_date : Option Int
  end_date : Option Int
  relevance_score : ℚ
deriving DecidableEq

/-- A surviving row after df.dropna(subset=["start_date", "end_date", "city"])
and city normalization df["city"].astype(str).str.strip(). -/
structure PRow where
  event_name : String
  city : String
  start_date : Int
  end_date : Int
  relevance_score : ℚ
deriving DecidableEq

/-- The dropna and city-strip steps of planner.py. -/
def cleanRows (rows : List SRow) : List PRow :=
  rows.filterMap (fun r =>
    match r.start_date, r.end_date, r.city with
    | some s, some e, some c => some ⟨r.event_name, pyStrip c, s, e, r.relevance_score⟩
    | _, _, _ => none)

/-- The fixed_event dict built in the per-city loop of planner.py.
The source key "end" is a reserved word in Lean and is rendered stop. -/
structure FEvent where
  name : String
  start : Int
  stop : Int
  duration_days : Int
  relevance : ℚ
deriving DecidableEq

/-- The flexible_activity dict built in the per-city loop of planner.py. -/
structure XEvent where
  name : String
  relevance : ℚ
deriving DecidableEq

/-- The fixed_events list of a city group, in row order. -/
def fixedOf (g : List PRow) : List FEvent :=
  g.filterMap (fun r =>
    if is_flexible_event r.event_name then none
    else some ⟨r.event_name, r.start_date, r.end_date,
               event_duration r.start_date r.end_date, round4 r.relevance_score⟩)

/-- The flexible_events list of a city group, in row order. -/
def flexOf (g : List PRow) : List XEvent :=
  g.filterMap (fun r =>
    if is_flexible_event r.event_name then some ⟨r.event_name, round4 r.relevance_score⟩
    else none)

/-- The key of fixed_events.sort(key=lambda e: e["start"]). -/
def fixedLE (a b : FEvent) : Prop := a.start ≤ b.start

instance fixedLEDecidable : DecidableRel fixedLE := fun a b => Int.decLe a.start b.start

instance fixedLETotal : IsTotal FEvent fixedLE := ⟨fun a b => Int.le_total a.start b.start⟩

instance fixedLETrans : IsTrans FEvent fixedLE :=
  ⟨fun _ _ _ h1 h2 => Int.le_trans h1 h2⟩

/-- The stable sort of fixed events by start date. -/
def sortFixed (l : List FEvent) : List FEvent := List.insertionSort fixedLE l

/-- The consecutive gaps computed by average_gap_days of planner.py:
(events[i+1]["start"] - events[i]["end"]).days - 1, floored at 0. -/
def gaps : List FEvent → List Int
  | a :: b :: t => max 0 (b.start - a.stop - 1) :: gaps (b :: t)
  | _ => []

/-- average_gap_days of planner.py. -/
def average_gap_days (events : List FEvent) : ℚ :=
  if events.length ≤ 1 then 0
  else ((gaps events).sum : ℚ) / ((gaps events).length : ℚ)

/-- The two event classifications emitted in plan.json. -/
inductive EvType where
  | fixed_event
  | flexible_activity
deriving DecidableEq

/-- An entry of a city's "events" array in plan.json.  Flexible activities
carry no start/end keys, modelled as none. -/
structure OEvent where
  name : String
  type : EvType
  start_date : Option Int
  end_date : Option Int
  duration_days : Int
  relevance : ℚ
deriving DecidableEq

/-- The output dict of a fixed event. -/
def toOutFixed (e : FEvent) : OEvent :=
  ⟨e.name, .fixed_event, some e.start, some e.stop, e.duration_days, e.relevance⟩

/-- The output dict of a flexible activity (duration_days fixed at 1). -/
def toOutFlex (x : XEvent) : OEvent :=
  ⟨x.name, .flexible_activity, none, none, 1, x.relevance⟩

/-- The merged output_events list of a city group before the relevance sort:
fixed events (already sorted by start) followed by flexible events. -/
def output_events (g : List PRow) : List OEvent :=
  (sortFixed (fixedOf g)).map toOutFixed ++ (flexOf g).map toOutFlex

/-- The key of output_events.sort(key=lambda x: x["relevance"], reverse=True). -/
def relDesc (a b : OEvent) : Prop := b.relevance ≤ a.relevance

instance relDescDecidable : DecidableRel relDesc :=
  fun a b => Rat.instDecidableLe b.relevance a.relevance

instance relDescTotal : IsTotal OEvent relDesc := ⟨fun a b => le_total b.relevance a.relevance⟩

instance relDescTrans : IsTrans OEvent relDesc := ⟨fun _ _ _ h1 h2 => le_trans h2 h1⟩

/-- A CityPlan entry of plan.json. -/
structure CityPlan where
  city : String
  city_score : ℚ
  city_start_date : Int
  city_end_date : Int
  events : List OEvent
deriving DecidableEq

/-- The plan.json artifact. -/
structure TripPlan where
  trip_start : Int
  trip_end : Int
  cities : List CityPlan
deriving DecidableEq

/-- The body of the per-city loop of planner.py: classify the group's rows,
derive the visit window from the sorted fixed events (defaulting to the trip
bounds), compute the city score, and emit the relevance-sorted events. -/
def buildCityPlan (trip_start trip_end : Int) (city : String) (g : List PRow) :
    CityPlan :=
  let fixed_events := sortFixed (fixedOf g)
  let window :=
    match fixed_events with
    | [] => (trip_start, trip_end)
    | f :: rest => (f.start, (rest.getLastD f).stop)
  let scorePair :=
    match fixed_events with
    | [] => ((0 : ℚ), (0 : ℚ))
    | _ :: _ =>
      ((fixed_events.map FEvent.relevance).sum / (fixed_events.length : ℚ),
       1 / (1 + average_gap_days fixed_events))
  let city_score := W_RELEVANCE * scorePair.1 + W_DENSITY * scorePair.2
  ⟨city, round4 city_score, window.1, window.2,
   List.insertionSort relDesc (output_events g)⟩

/-- The distinct city keys in order of first occurrence, carrying the set of
keys already seen. -/
def firstDedupAux (seen : List String) : List String → List String
  | [] => []
  | c :: cs =>
    if memStr seen c then firstDedupAux seen cs
    else c :: firstDedupAux (c :: seen) cs

/-- The distinct city keys in order of first occurrence
(df.groupby("city", sort=False)). -/
def firstDedup (l : List String) : List String := firstDedupAux [] l

/-- The consecutive-pair gap list exactly as the specification words it:
for consecutive fixed events in start-date order,
max(0, (next.start - current.end).days - 1). -/
def consecGaps (l : List FEvent) : List Int :=
  (l.zip l.tail).map (fun p => max 0 (p.2.start - p.1.stop - 1))

/-- The average gap exactly as the specification words it: the mean of the
consecutive-pair gaps, 0 when there is at most one fixed event. -/
def specAvgGap (l : List FEvent) : ℚ :=
  if l.length ≤ 1 then 0
  else ((consecGaps l).sum : ℚ) / ((consecGaps l).length : ℚ)

/-- The key of plan["cities"].sort(key=lambda c: c["city_start_date"]).
The source compares the strftime("%Y-%m-%d") strings; on ISO-formatted
dates that lexicographic order coincides with the date order used here. -/
def cityLE (a b : CityPlan) : Prop := a.city_start_date ≤ b.city_start_date

instance cityLEDecidable : DecidableRel cityLE :=
  fun a b => Int.decLe a.city_start_date b.city_start_date

instance cityLETotal : IsTotal CityPlan cityLE :=
  ⟨fun a b => Int.le_total a.city_start_date b.city_start_date⟩

instance cityLETrans : IsTrans CityPlan cityLE :=
  ⟨fun _ _ _ h1 h2 => Int.le_trans h1 h2⟩

/-- The whole plan-building pass of planner.py over final.csv rows. -/
def buildPlan (trip_start trip_end : Int) (input : List SRow) : TripPlan :=
  let rows := cleanRows input
  let cityNames := firstDedup (rows.map PRow.city)
  let cities := cityNames.map (fun c =>
    buildCityPlan trip_start trip_end c (rows.filter (fun r => decide (r.city = c))))
  ⟨trip_start, trip_end, List.insertionSort cityLE cities⟩

/-! ## Helper lemmas -/

theorem memStr_iff {s : String} : ∀ {l : List String}, memStr l s = true ↔ s ∈ l := by
  intro l
  induction l with
  | nil => simp [memStr]
  | cons c t ih =>
    by_cases hsc : s = c
    · subst hsc; simp [memStr]
    · simp [memStr, hsc, ih]

theorem mem_firstDedupAux {a : String} :
    ∀ {l : List String} {seen : List String},
      a ∈ firstDedupAux seen l ↔ a ∈ l ∧ memStr seen a = false := by
  intro l
  induction l with
  | nil => simp [firstDedupAux]
  | cons c cs ih =>
    intro seen
    by_cases hs : memStr seen c = true
    · rw [firstDedupAux, if_pos hs, ih]
      constructor
      · rintro ⟨h1, h2⟩; exact ⟨List.mem_cons_of_mem _ h1, h2⟩
      · rintro ⟨h1, h2⟩
        rcases List.mem_cons.mp h1 with rfl | h1
        · exact absurd hs (by simp [h2])
        · exact ⟨h1, h2⟩
    · rw [firstDedupAux, if_neg hs]
      constructor
      · intro h1
        rcases List.mem_cons.mp h1 with rfl | h1
        · exact ⟨List.mem_cons_self _ _, Bool.not_eq_true _ ▸ hs⟩
        · obtain ⟨h2, h3⟩ := ih.mp h1
          have h4 : ¬(a = c) := by
            intro hac
            rw [memStr, if_pos hac] at h3
            exact Bool.false_ne_true h3.symm
          rw [memStr, if_neg h4] at h3
          exact ⟨List.mem_cons_of_mem _ h2, h3⟩
      · rintro ⟨h1, h2⟩
        rcases List.mem_cons.mp h1 with rfl | h1
        · exact List.mem_cons_self _ _
        · by_cases hac : a = c
          · subst hac; exact List.mem_cons_self _ _
          · refine List.mem_cons_of_mem _ (ih.mpr ⟨h1, ?_⟩)
            rw [memStr, if_neg hac]
            exact h2

theorem mem_firstDedup {a : String} {l : List String} : a ∈ firstDedup l ↔ a ∈ l := by
  unfold firstDedup
  rw [mem_firstDedupAux]
  simp [memStr]

theorem nodup_firstDedupAux :
    ∀ (l : List String) (seen : List String), (firstDedupAux seen l).Nodup := by
  intro l
  induction l with
  | nil => intro seen; simp [firstDedupAux]
  | cons c cs ih =>
    intro seen
    by_cases hs : memStr seen c = true
    · rw [firstDedupAux, if_pos hs]; exact ih seen
    · rw [firstDedupAux, if_neg hs]
      refine List.nodup_cons.mpr ⟨fun hmem => ?_, ih (c :: seen)⟩
      have := (mem_firstDedupAux.mp hmem).2
      rw [memStr, if_pos rfl] at this
      simp at this

theorem nodup_firstDedup (l : List String) : (firstDedup l).Nodup :=
  nodup_firstDedupAux l []

theorem round4_zero : round4 0 = 0 := by
  simp [round4]

theorem round4_nonneg {q : ℚ} (h : 0 ≤ q) : 0 ≤ round4 q := by
  unfold round4
  have h1 : (0 : ℤ) ≤ round (q * 10000) := by
    rw [round_eq]
    rw [Int.le_floor]
    have : (0 : ℚ) ≤ q * 10000 := by positivity
    push_cast
    linarith
  positivity

theorem round4_le_one {q : ℚ} (h : q ≤ 1) : round4 q ≤ 1 := by
  unfold round4
  have h1 : round (q * 10000) ≤ (10000 : ℤ) := by
    rw [round_eq]
    have h2 : q * 10000 + 1 / 2 ≤ 10000 + 1 / 2 := by linarith
    calc ⌊q * 10000 + 1 / 2⌋ ≤ ⌊(10000 : ℚ) + 1 / 2⌋ := Int.floor_mono h2
    _ = 10000 := by norm_num [Int.floor_eq_iff]
  rw [div_le_one (by norm_num)]
  exact_mod_cast h1

theorem gaps_eq_consecGaps : ∀ (l : List FEvent), gaps l = consecGaps l := by
  intro l
  induction l with
  | nil => rfl
  | cons a t ih =>
    cases t with
    | nil => rfl
    | cons b t2 =>
      simp only [gaps, consecGaps, List.zip, List.tail_cons, List.zipWith_cons_cons,
        List.map_cons] at ih ⊢
      exact congrArg _ ih

theorem average_gap_eq_spec (l : List FEvent) : average_gap_days l = specAvgGap l := by
  unfold average_gap_days specAvgGap
  rw [gaps_eq_consecGaps]

theorem buildCityPlan_city (ts te : Int) (c : String) (g : List PRow) :
    (buildCityPlan ts te c g).city = c := rfl

theorem buildCityPlan_events (ts te : Int) (c : String) (g : List PRow) :
    (buildCityPlan ts te c g).events = List.insertionSort relDesc (output_events g) := rfl

theorem buildCityPlan_score (ts te : Int) (c : String) (g : List PRow) :
    (buildCityPlan ts te c g).city_score =
      round4 (W_RELEVANCE *
          (if sortFixed (fixedOf g) = [] then 0
           else ((sortFixed (fixedOf g)).map FEvent.relevance).sum /
             ((sortFixed (fixedOf g)).length : ℚ))
        + W_DENSITY *
          (if sortFixed (fixedOf g) = [] then 0
           else 1 / (1 + specAvgGap (sortFixed (fixedOf g))))) := by
  unfold buildCityPlan
  cases h : sortFixed (fixedOf g) with
  | nil => simp [h]
  | cons f rest =>
    simp only [h]
    rw [← average_gap_eq_spec]
    simp

theorem buildCityPlan_score_empty (ts te : Int) (c : String) (g : List PRow)
    (h : fixedOf g = []) : (buildCityPlan ts te c g).city_score = 0 := by
  have hs : sortFixed (fixedOf g) = [] := by rw [h]; rfl
  rw [buildCityPlan_score, hs]
  simp [round4_zero]

theorem buildCityPlan_window_empty (ts te : Int) (c : String) (g : List PRow)
    (h : sortFixed (fixedOf g) = []) :
    (buildCityPlan ts te c g).city_start_date = ts
    ∧ (buildCityPlan ts te c g).city_end_date = te := by
  unfold buildCityPlan
  rw [h]
  exact ⟨rfl, rfl⟩

theorem mem_buildPlan_cities {ts te : Int} {input : List SRow} {cp : CityPlan} :
    cp ∈ (buildPlan ts te input).cities ↔
    ∃ c ∈ firstDedup ((cleanRows input).map PRow.city),
      cp = buildCityPlan ts te c
        ((cleanRows input).filter (fun r => decide (r.city = c))) := by
  unfold buildPlan
  rw [List.Perm.mem_iff (List.perm_insertionSort _ _)]
  simp only [List.mem_map]
  constructor
  · rintro ⟨c, hc, rfl⟩; exact ⟨c, hc, rfl⟩
  · rintro ⟨c, hc, rfl⟩; exact ⟨c, hc, rfl⟩

theorem mem_fixedOf_not_flexible {g : List PRow} {e : FEvent} (h : e ∈ fixedOf g) :
    is_flexible_event e.name = false := by
  unfold fixedOf at h
  rw [List.mem_filterMap] at h
  obtain ⟨r, _, hr⟩ := h
  by_cases hf : is_flexible_event r.event_name
  · simp [hf] at hr
  · simp [if_neg hf] at hr
    rw [← hr]
    simpa using hf

theorem mem_flexOf_flexible {g : List PRow} {x : XEvent} (h : x ∈ flexOf g) :
    is_flexible_event x.name = true := by
  unfold flexOf at h
  rw [List.mem_filterMap] at h
  obtain ⟨r, _, hr⟩ := h
  by_cases hf : is_flexible_event r.event_name
  · simp [if_pos hf] at hr
    rw [← hr]
    simpa using hf
  · simp [if_neg hf] at hr

theorem fixedOf_filter_flexless (g : List PRow) :
    fixedOf (g.filter (fun r => !(is_flexible_event r.event_name))) = fixedOf g := by
  induction g with
  | nil => rfl
  | cons r t ih =>
    by_cases hf : is_flexible_event r.event_name
    · simp [fixedOf, List.filter, hf] at ih ⊢
      exact ih
    · simp only [List.filter_cons]
      rw [show (!(is_flexible_event r.event_name)) = true by simp [hf]]
      simp only [if_pos]
      unfold fixedOf at ih ⊢
      simp [List.filterMap_cons, hf, ih]

/-! ## Claim theorems -/

/-- Claim C9: city matching is invariant under case and surrounding whitespace
of the requested names: for every catalog and trip window, filtering with
requested city "delhi" and filtering with "Delhi " yield identical results,
because requested names are trimmed and lowercased before comparison. -/
theorem filter_city_normalization (catalog : Catalog) (trip_start trip_end : Int) :
    filter_events_by_city_and_date catalog ["delhi"] trip_start trip_end
    = filter_events_by_city_and_date catalog ["Delhi "] trip_start trip_end := by
  unfold filter_events_by_city_and_date
  rw [show normCities ["delhi"] = normCities ["Delhi "] from by decide]

/-- Claim C8: for every trip date range, if the normalized requested-city set
is empty the Catalog Filter returns an empty result immediately without
raising an error, and this empty result is distinguishable from a schema
failure (an Except.error value). -/
theorem filter_empty_selection (catalog : Catalog) (cities : List String)
    (trip_start trip_end : Int) (hc : catalog.hasCity = true)
    (hn : normCities cities = []) :
    filter_events_by_city_and_date catalog cities trip_start trip_end = .ok []
    ∧ ∀ err, (Except.ok [] : Except FilterError (List FRow)) ≠ .error err := by
  unfold filter_events_by_city_and_date filterCore
  rw [hn, hc]
  simp

/-- Witness for C8 at a concrete catalog and a request list holding only an
empty and a whitespace-only name. -/
theorem filter_empty_selection_witness :
    filter_events_by_city_and_date
      ⟨true, true, true, true, true, [⟨"Diwali Mela", "Delhi", some 3, some 4, none⟩]⟩
      ["", "   "] 0 10 = .ok []
    ∧ ∀ err, (Except.ok [] : Except FilterError (List FRow)) ≠ .error err :=
  filter_empty_selection _ _ _ _ rfl (by decide)

/-- Counterexample to claim C2 as stated: a catalog lacking the required
column "name" is not rejected; the filter succeeds and produces a non-empty
filtered output. -/
theorem filter_missing_name_succeeds :
    filter_events_by_city_and_date
      ⟨false, true, true, true, true, [⟨"Diwali Mela", "Delhi", some 3, some 4, none⟩]⟩
      ["delhi"] 0 10
    = .ok [⟨"Diwali Mela", "Delhi", 3, 4, none⟩] := by
  rfl

/-- Claim C2 (amended): the Catalog Filter has no schema check for "name" and
its result never depends on that column's presence; it does fail, with a
column-access KeyError propagated to the caller and no filtered output, when
"city" is missing, and - once the normalized requested-city set is non-empty -
when "start_date", "end_date" or "start_time" is missing. -/
theorem filter_schema_failures (catalog : Catalog) (cities : List String)
    (trip_start trip_end : Int) :
    (catalog.hasCity = false →
      ∃ err, filter_events_by_city_and_date catalog cities trip_start trip_end
        = .error err)
    ∧ (catalog.hasCity = true → normCities cities ≠ [] →
        (catalog.hasStartDate = false ∨ catalog.hasEndDate = false ∨
          catalog.hasStartTime = false) →
        ∃ err, filter_events_by_city_and_date catalog cities trip_start trip_end
          = .error err)
    ∧ (∀ b, filter_events_by_city_and_date { catalog with hasName := b } cities
          trip_start trip_end
        = filter_events_by_city_and_date catalog cities trip_start trip_end) := by
  obtain ⟨hn, hc, hsd, hed, hst, rows⟩ := catalog
  refine ⟨fun h1 => ?_, fun h1 h2 h3 => ?_, fun b => rfl⟩
  · simp only at h1
    subst h1
    exact ⟨.keyError "city", by simp [filter_events_by_city_and_date, filterCore]⟩
  · unfold filter_events_by_city_and_date filterCore
    simp only at h1 h3 ⊢
    rw [h1]
    rw [if_neg (by simp)]
    rw [if_neg h2]
    rcases h3 with h3 | h3 | h3
    · exact ⟨.keyError "start_date", by rw [h3]; simp⟩
    · rcases hb : hsd with _ | _
      · exact ⟨.keyError "start_date", by simp⟩
      · exact ⟨.keyError "end_date", by rw [h3]; simp⟩
    · rcases hb : hsd with _ | _
      · exact ⟨.keyError "start_date", by simp⟩
      · rcases hb2 : hed with _ | _
        · exact ⟨.keyError "end_date", by simp⟩
        · exact ⟨.keyError "start_time", by rw [h3]; simp⟩

/-- Witness for the amended C2: a catalog lacking only "start_date", with a
non-empty request, fails; and the result at the missing-name catalog of the
counterexample equals the result with the name column restored. -/
theorem filter_schema_failures_witness :
    (∃ err, filter_events_by_city_and_date
        ⟨true, true, false, true, true, [⟨"Diwali Mela", "Delhi", some 3, some 4, none⟩]⟩
        ["delhi"] 0 10 = .error err)
    ∧ filter_events_by_city_and_date
        ⟨true, false, true, true, true, [⟨"Diwali Mela", "Delhi", some 3, some 4, none⟩]⟩
        ["delhi"] 0 10
      = filter_events_by_city_and_date
        ⟨false, false, true, true, true, [⟨"Diwali Mela", "Delhi", some 3, some 4, none⟩]⟩
        ["delhi"] 0 10 := by
  constructor
  · exact (filter_schema_failures _ _ _ _).2.1 rfl (by decide) (Or.inl rfl)
  · exact ((filter_schema_failures
      ⟨false, false, true, true, true, [⟨"Diwali Mela", "Delhi", some 3, some 4, none⟩]⟩
      ["delhi"] 0 10).2.2 true).symm ▸ rfl

/-- Claim C6: every event in the Catalog Filter's output overlaps the trip
window (start_date ≤ trip_end and trip_start ≤ end_date), and every catalog
row of a requested (normalized) city whose dates parse and whose interval
overlaps the window is retained in the output. -/
theorem filter_overlap (catalog : Catalog) (cities : List String)
    (trip_start trip_end : Int) (out : List FRow)
    (hok : filter_events_by_city_and_date catalog cities trip_start trip_end
      = .ok out) :
    (∀ r ∈ out, r.start_date ≤ trip_end ∧ trip_start ≤ r.end_date)
    ∧ ∀ row ∈ catalog.rows, ∀ s e,
        row.start_date = some s → row.end_date = some e →
        memStr (normCities cities) (pyLower (pyStrip row.city)) = true →
        s ≤ trip_end → trip_start ≤ e →
        (⟨row.name, pyStrip row.city, s, e, row.start_time⟩ : FRow) ∈ out := by
  unfold filter_events_by_city_and_date filterCore at hok
  by_cases h1 : catalog.hasCity = false
  · rw [if_pos h1] at hok
    exact absurd hok (by simp)
  rw [if_neg h1] at hok
  by_cases h2 : normCities cities = []
  · rw [if_pos h2] at hok
    have hout : [] = out := by simpa using hok
    subst hout
    refine ⟨by simp, fun row hrow s e hs he hmem hse hte => ?_⟩
    rw [h2] at hmem
    simp [memStr] at hmem
  rw [if_neg h2] at hok
  by_cases h3 : catalog.hasStartDate = false
  · rw [if_pos h3] at hok
    exact absurd hok (by simp)
  rw [if_neg h3] at hok
  by_cases h4 : catalog.hasEndDate = false
  · rw [if_pos h4] at hok
    exact absurd hok (by simp)
  rw [if_neg h4] at hok
  by_cases h5 : catalog.hasStartTime = false
  · rw [if_pos h5] at hok
    exact absurd hok (by simp)
  rw [if_neg h5] at hok
  have hout :
      sortFRows ((((catalog.rows.map (fun r => { r with city := pyStrip r.city })).filterMap
        (fun r =>
          match r.start_date, r.end_date with
          | some s, some e => some (⟨r.name, r.city, s, e, r.start_time⟩ : FRow)
          | _, _ => none)).filter
        (fun r => memStr (normCities cities) (pyLower r.city))).filter
        (fun r => decide (r.start_date ≤ trip_end) && decide (trip_start ≤ r.end_date)))
      = out := by simpa using hok
  subst hout
  constructor
  · intro r hr
    have hr4 := (List.perm_insertionSort _ _).mem_iff.mp hr
    rw [List.mem_filter] at hr4
    have hcond := hr4.2
    simp only [Bool.and_eq_true, decide_eq_true_eq] at hcond
    exact hcond
  · intro row hrow s e hs he hmem hse hte
    apply (List.perm_insertionSort _ _).mem_iff.mpr
    rw [List.mem_filter]
    refine ⟨?_, by simp [hse, hte]⟩
    rw [List.mem_filter]
    refine ⟨?_, by simpa using hmem⟩
    rw [List.mem_filterMap]
    refine ⟨⟨row.name, pyStrip row.city, row.start_date, row.end_date, row.start_time⟩,
      ?_, ?_⟩
    · exact List.mem_map.mpr ⟨row, hrow, rfl⟩
    · rw [hs, he]

/-- Witness for C6 at a concrete catalog: the single overlapping row of the
requested city is retained and satisfies the overlap test. -/
theorem filter_overlap_witness :
    ((⟨"E1", "DELHI", 3, 4, some 5⟩ : FRow).start_date ≤ 10
      ∧ (0 : Int) ≤ (⟨"E1", "DELHI", 3, 4, some 5⟩ : FRow).end_date)
    ∧ (⟨"E1", pyStrip " DELHI ", 3, 4, some 5⟩ : FRow)
        ∈ [(⟨"E1", "DELHI", 3, 4, some 5⟩ : FRow)] := by
  have h := filter_overlap
    ⟨true, true, true, true, true,
      [⟨"E1", " DELHI ", some 3, some 4, some 5⟩, ⟨"E2", "delhi", some 20, some 30, none⟩]⟩
    ["Delhi "] 0 10 [⟨"E1", "DELHI", 3, 4, some 5⟩] rfl
  refine ⟨h.1 _ (by decide), ?_⟩
  exact h.2 ⟨"E1", " DELHI ", some 3, some 4, some 5⟩ (by decide) 3 4 rfl rfl
    (by decide) (by decide) (by decide)

/-- Claim C3: on {0,1}-valued event category rows the code's relevance score
equals the specification formula (accumulate user_weight over the active
categories with positive user weight, normalize by the accumulated weight or
yield 0, add the 0.4 tourism bias when a tourism category is active, clamp to
[0,1], round to 4 decimals); every relevance score lies in [0,1]; and the
single-event scenario with heritage_walk = 1 and user weight 0.8 scores 1. -/
theorem relevance_spec_bounds_scenario :
    (∀ u r, (∀ cat, getVal r cat = 0 ∨ getVal r cat = 1) →
      compute_relevance u r = spec_relevance u r)
    ∧ (∀ u r, 0 ≤ compute_relevance u r ∧ compute_relevance u r ≤ 1)
    ∧ compute_relevance [("heritage_walk", 4/5)] [("heritage_walk", 1)] = 1 := by
  refine ⟨fun u r h => ?_, fun u r => ?_, ?_⟩
  · unfold compute_relevance spec_relevance
    have hfold : CATEGORIES.foldl
        (fun (acc : ℚ × ℚ) cat =>
          if 0 < getVal r cat ∧ 0 < getVal u cat then
            (acc.1 + getVal u cat * getVal r cat, acc.2 + getVal u cat)
          else acc) ((0 : ℚ), (0 : ℚ))
      = CATEGORIES.foldl
        (fun (acc : ℚ × ℚ) cat =>
          if getVal r cat = 1 ∧ 0 < getVal u cat then
            (acc.1 + getVal u cat, acc.2 + getVal u cat)
          else acc) ((0 : ℚ), (0 : ℚ)) := by
      apply List.foldl_ext
      intro acc cat _
      rcases h cat with h0 | h1
      · simp [h0]
      · simp [h1]
    rw [hfold]
  · refine ⟨round4_nonneg (le_max_left _ _), round4_le_one ?_⟩
    exact max_le (by norm_num) (min_le_left _ _)
  · unfold compute_relevance
    simp only [CATEGORIES, TOURISM_CATEGORIES, TOURISM_BIAS]
    simp [getVal, hasTourism, List.foldl, max_def, min_def]
    norm_num [round4, round_eq]

/-- Witness for C3: code/spec agreement, and both bounds, at the concrete
scenario event (heritage_walk active, user weight 0.8). -/
theorem relevance_witness :
    compute_relevance [("heritage_walk", (4 : ℚ)/5)] [("heritage_walk", (1 : ℚ))]
      = spec_relevance [("heritage_walk", (4 : ℚ)/5)] [("heritage_walk", (1 : ℚ))]
    ∧ 0 ≤ compute_relevance [("heritage_walk", (4 : ℚ)/5)] [("heritage_walk", (1 : ℚ))]
    ∧ compute_relevance [("heritage_walk", (4 : ℚ)/5)] [("heritage_walk", (1 : ℚ))] ≤ 1 := by
  have h := relevance_spec_bounds_scenario
  refine ⟨h.1 _ _ (fun cat => ?_), (h.2.1 _ _).1, (h.2.1 _ _).2⟩
  by_cases hc : ("heritage_walk" : String) = cat <;> simp [getVal, hc]

/-- Counterexample to claim C1 as stated: for a city whose fixed-event
intervals nest (ends 9 and 2, the later-starting event ending earlier), the
emitted city_end_date is 2, the end of the last event in start order, not
the maximum end date 9. -/
theorem city_window_counterexample :
    (buildPlan 0 20
        [⟨"Event A", some "X", some 0, some 9, 0⟩,
         ⟨"Event B", some "X", some 1, some 2, 0⟩]).cities.map CityPlan.city_end_date
      = [2]
    ∧ (fixedOf (cleanRows
        [⟨"Event A", some "X", some 0, some 9, 0⟩,
         ⟨"Event B", some "X", some 1, some 2, 0⟩])).map FEvent.stop = [9, 2]
    ∧ ¬ ((2 : Int) = max 9 2) := by
  refine ⟨rfl, rfl, by decide⟩

/-- Claim C1 (amended): for a city group with at least one fixed event,
city_start_date is the minimum start_date over the city's fixed events, and
city_end_date is the end_date of the last fixed event in ascending
start-date order (not necessarily the maximum end_date); for a city group
with no fixed events the window defaults to the trip bounds. -/
theorem city_window (ts te : Int) (c : String) (g : List PRow) :
    (sortFixed (fixedOf g) = [] →
      (buildCityPlan ts te c g).city_start_date = ts
      ∧ (buildCityPlan ts te c g).city_end_date = te)
    ∧ (sortFixed (fixedOf g) ≠ [] →
        ((buildCityPlan ts te c g).city_start_date ∈ (fixedOf g).map FEvent.start
          ∧ ∀ x ∈ (fixedOf g).map FEvent.start,
              (buildCityPlan ts te c g).city_start_date ≤ x)
        ∧ ∀ d, (buildCityPlan ts te c g).city_end_date
            = ((sortFixed (fixedOf g)).getLastD d).stop) := by
  refine ⟨fun h => buildCityPlan_window_empty ts te c g h, fun hne => ?_⟩
  have hperm : (sortFixed (fixedOf g)).Perm (fixedOf g) := List.perm_insertionSort _ _
  have hsorted : List.Sorted fixedLE (sortFixed (fixedOf g)) :=
    List.sorted_insertionSort fixedLE (fixedOf g)
  cases hF : sortFixed (fixedOf g) with
  | nil => exact absurd hF hne
  | cons f rest =>
    have hstart : (buildCityPlan ts te c g).city_start_date = f.start := by
      simp only [buildCityPlan, hF]
    have hend : ∀ d, (buildCityPlan ts te c g).city_end_date
        = ((f :: rest).getLastD d).stop := by
      intro d
      simp only [buildCityPlan, hF, List.getLastD_cons]
    have hmemf : f ∈ fixedOf g := by
      rw [← hperm.mem_iff, hF]
      exact List.mem_cons_self f rest
    refine ⟨⟨?_, ?_⟩, hend⟩
    · rw [hstart]
      exact List.mem_map.mpr ⟨f, hmemf, rfl⟩
    · intro x hx
      rw [hstart]
      obtain ⟨e, he, rfl⟩ := List.mem_map.mp hx
      have he2 : e ∈ f :: rest := by
        rw [← hF, hperm.mem_iff]
        exact he
      rcases List.mem_cons.mp he2 with rfl | he3
      · exact le_refl _
      · exact List.rel_of_sorted_cons (hF ▸ hsorted) e he3

/-- Witness for the amended C1 at the counterexample city group: the window
start is the minimal fixed start (0 ≤ the other start 1) and the window end
is the stop of the last event in start order. -/
theorem city_window_witness :
    (buildCityPlan 0 20 "X"
        [⟨"Event A", "X", 0, 9, 0⟩, ⟨"Event B", "X", 1, 2, 0⟩]).city_start_date
      ∈ (fixedOf [⟨"Event A", "X", 0, 9, 0⟩, ⟨"Event B", "X", 1, 2, 0⟩]).map FEvent.start
    ∧ (buildCityPlan 0 20 "X"
        [⟨"Event A", "X", 0, 9, 0⟩, ⟨"Event B", "X", 1, 2, 0⟩]).city_start_date ≤ 1
    ∧ (buildCityPlan 0 20 "X"
        [⟨"Event A", "X", 0, 9, 0⟩, ⟨"Event B", "X", 1, 2, 0⟩]).city_end_date
      = ((sortFixed (fixedOf [⟨"Event A", "X", 0, 9, 0⟩, ⟨"Event B", "X", 1, 2, 0⟩])).getLastD
          ⟨"", 0, 0, 0, 0⟩).stop := by
  have h := (city_window 0 20 "X"
    [⟨"Event A", "X", 0, 9, 0⟩, ⟨"Event B", "X", 1, 2, 0⟩]).2 (by decide)
  refine ⟨h.1.1, h.1.2 1 ?_, h.2 ⟨"", 0, 0, 0, 0⟩⟩
  show (1 : Int) ∈ _
  decide

/-- Claim C4: the city score is round4 of 0.5 * (mean relevance of the fixed
events) plus 0.5 * 1/(1 + average gap), where the average gap is the mean
over consecutive start-ordered fixed-event pairs of max(0, next.start -
current.end - 1) and is 0 for at most one fixed event; with no fixed events
both terms are 0 (so the score is 0); flexible events never contribute. -/
theorem city_score_formula (ts te : Int) (c : String) (g : List PRow) :
    ((buildCityPlan ts te c g).city_score =
      round4 (W_RELEVANCE *
          (if sortFixed (fixedOf g) = [] then 0
           else ((sortFixed (fixedOf g)).map FEvent.relevance).sum /
             ((sortFixed (fixedOf g)).length : ℚ))
        + W_DENSITY *
          (if sortFixed (fixedOf g) = [] then 0
           else 1 / (1 + specAvgGap (sortFixed (fixedOf g))))))
    ∧ average_gap_days (sortFixed (fixedOf g)) = specAvgGap (sortFixed (fixedOf g))
    ∧ ((fixedOf g).length ≤ 1 → specAvgGap (sortFixed (fixedOf g)) = 0)
    ∧ (fixedOf g = [] → (buildCityPlan ts te c g).city_score = 0)
    ∧ (buildCityPlan ts te c
        (g.filter (fun r => !(is_flexible_event r.event_name)))).city_score
      = (buildCityPlan ts te c g).city_score := by
  refine ⟨buildCityPlan_score ts te c g, average_gap_eq_spec _, fun hlen => ?_,
    fun h => buildCityPlan_score_empty ts te c g h, ?_⟩
  · unfold specAvgGap
    rw [if_pos]
    show (sortFixed (fixedOf g)).length ≤ 1
    unfold sortFixed
    rw [(List.perm_insertionSort fixedLE (fixedOf g)).length_eq]
    exact hlen
  · rw [buildCityPlan_score, buildCityPlan_score, fixedOf_filter_flexless]

/-- Witness for C4 at two concrete groups: the empty group scores 0, and a
one-event group has average gap 0 and satisfies the main formula. -/
theorem city_score_formula_witness :
    (buildCityPlan 0 20 "X" []).city_score = 0
    ∧ specAvgGap (sortFixed (fixedOf [⟨"Heritage Walk", "X", 1, 2, (1 : ℚ)/2⟩])) = 0
    ∧ (buildCityPlan 0 20 "X" [⟨"Heritage Walk", "X", 1, 2, (1 : ℚ)/2⟩]).city_score =
      round4 (W_RELEVANCE *
          (if sortFixed (fixedOf [⟨"Heritage Walk", "X", 1, 2, (1 : ℚ)/2⟩]) = [] then 0
           else ((sortFixed (fixedOf [⟨"Heritage Walk", "X", 1, 2, (1 : ℚ)/2⟩])).map
               FEvent.relevance).sum /
             ((sortFixed (fixedOf [⟨"Heritage Walk", "X", 1, 2, (1 : ℚ)/2⟩])).length : ℚ))
        + W_DENSITY *
          (if sortFixed (fixedOf [⟨"Heritage Walk", "X", 1, 2, (1 : ℚ)/2⟩]) = [] then 0
           else 1 / (1 + specAvgGap
             (sortFixed (fixedOf [⟨"Heritage Walk", "X", 1, 2, (1 : ℚ)/2⟩]))))) := by
  refine ⟨(city_score_formula 0 20 "X" []).2.2.2.1 rfl,
    (city_score_formula 0 20 "X" [⟨"Heritage Walk", "X", 1, 2, (1 : ℚ)/2⟩]).2.2.1 ?_,
    (city_score_formula 0 20 "X" [⟨"Heritage Walk", "X", 1, 2, (1 : ℚ)/2⟩]).1⟩
  show (fixedOf [⟨"Heritage Walk", "X", 1, 2, (1 : ℚ)/2⟩]).length ≤ 1
  show List.length _ ≤ 1
  rw [show fixedOf [⟨"Heritage Walk", "X", 1, 2, (1 : ℚ)/2⟩]
      = [⟨"Heritage Walk", 1, 2, 2, round4 ((1 : ℚ)/2)⟩] from rfl]
  exact le_refl 1

/-- Claim C5: the cities of the emitted plan are non-decreasing by
city_start_date, and within every city the events are non-increasing by
relevance, the sorted list being a permutation of the merged fixed and
flexible output events of that city's group. -/
theorem plan_ordering (ts te : Int) (input : List SRow) :
    List.Pairwise cityLE (buildPlan ts te input).cities
    ∧ ∀ cp ∈ (buildPlan ts te input).cities,
        List.Pairwise relDesc cp.events
        ∧ cp.events.Perm (output_events
            ((cleanRows input).filter (fun r => decide (r.city = cp.city)))) := by
  constructor
  · exact List.sorted_insertionSort cityLE _
  · intro cp hcp
    obtain ⟨c, hc, rfl⟩ := mem_buildPlan_cities.mp hcp
    rw [buildCityPlan_events, buildCityPlan_city]
    exact ⟨List.sorted_insertionSort relDesc _, List.perm_insertionSort relDesc _⟩

/-- Witness for C5 at a concrete one-event input. -/
theorem plan_ordering_witness :
    List.Pairwise cityLE
      (buildPlan 0 5 [⟨"Heritage Walk", some "X", some 1, some 2, 0⟩]).cities
    ∧ List.Pairwise relDesc
      (buildCityPlan 0 5 "X"
        ((cleanRows [⟨"Heritage Walk", some "X", some 1, some 2, 0⟩]).filter
          (fun r => decide (r.city = "X")))).events
    ∧ ((buildCityPlan 0 5 "X"
        ((cleanRows [⟨"Heritage Walk", some "X", some 1, some 2, 0⟩]).filter
          (fun r => decide (r.city = "X")))).events).Perm
      (output_events
        ((cleanRows [⟨"Heritage Walk", some "X", some 1, some 2, 0⟩]).filter
          (fun r => decide (r.city = "X")))) := by
  have h := plan_ordering 0 5 [⟨"Heritage Walk", some "X", some 1, some 2, 0⟩]
  have hm : buildCityPlan 0 5 "X"
      ((cleanRows [⟨"Heritage Walk", some "X", some 1, some 2, 0⟩]).filter
        (fun r => decide (r.city = "X")))
      ∈ (buildPlan 0 5 [⟨"Heritage Walk", some "X", some 1, some 2, 0⟩]).cities :=
    mem_buildPlan_cities.mpr ⟨"X", by decide, rfl⟩
  exact ⟨h.1, (h.2 _ hm).1, (h.2 _ hm).2⟩

/-- Claim C7: every (normalized) city of the plan builder's surviving scored
input appears exactly once in the final plan, and a city with zero fixed
events still appears, with city_score 0 and its window defaulted to the trip
bounds, as a valid result. -/
theorem city_completeness (ts te : Int) (input : List SRow) (c : String)
    (hc : c ∈ (cleanRows input).map PRow.city) :
    ((buildPlan ts te input).cities.map CityPlan.city).count c = 1
    ∧ ∀ cp ∈ (buildPlan ts te input).cities,
        fixedOf ((cleanRows input).filter (fun r => decide (r.city = cp.city))) = [] →
        cp.city_score = 0 ∧ cp.city_start_date = ts ∧ cp.city_end_date = te := by
  constructor
  · have h1 : ((buildPlan ts te input).cities).Perm
        ((firstDedup ((cleanRows input).map PRow.city)).map (fun c0 =>
          buildCityPlan ts te c0
            ((cleanRows input).filter (fun r => decide (r.city = c0))))) :=
      List.perm_insertionSort cityLE _
    have h2 := (h1.map CityPlan.city).count_eq c
    rw [h2, List.map_map]
    have h3 : (CityPlan.city ∘ fun c0 =>
        buildCityPlan ts te c0
          ((cleanRows input).filter (fun r => decide (r.city = c0))))
        = fun c0 => c0 := funext fun c0 => rfl
    rw [h3]
    have h4 : (firstDedup ((cleanRows input).map PRow.city)).map (fun c0 => c0)
        = firstDedup ((cleanRows input).map PRow.city) := List.map_id _
    rw [h4]
    exact List.count_eq_one_of_mem (nodup_firstDedup _) (mem_firstDedup.mpr hc)
  · intro cp hcp hfix
    obtain ⟨c0, hc0, rfl⟩ := mem_buildPlan_cities.mp hcp
    rw [buildCityPlan_city] at hfix
    refine ⟨buildCityPlan_score_empty _ _ _ _ hfix,
      (buildCityPlan_window_empty _ _ _ _ ?_).1,
      (buildCityPlan_window_empty _ _ _ _ ?_).2⟩
    all_goals rw [hfix]; rfl

/-- Witness for C7 at an input whose single city has only a flexible event:
the city still appears exactly once, scores 0, and takes the trip bounds. -/
theorem city_completeness_witness :
    (((buildPlan 0 5 [⟨"Explore the city attractions", some "X", some 1, some 2, 0⟩]).cities.map
        CityPlan.city).count "X" = 1)
    ∧ (buildCityPlan 0 5 "X"
        ((cleanRows [⟨"Explore the city attractions", some "X", some 1, some 2, 0⟩]).filter
          (fun r => decide (r.city = "X")))).city_score = 0
    ∧ (buildCityPlan 0 5 "X"
        ((cleanRows [⟨"Explore the city attractions", some "X", some 1, some 2, 0⟩]).filter
          (fun r => decide (r.city = "X")))).city_start_date = 0
    ∧ (buildCityPlan 0 5 "X"
        ((cleanRows [⟨"Explore the city attractions", some "X", some 1, some 2, 0⟩]).filter
          (fun r => decide (r.city = "X")))).city_end_date = 5 := by
  have h := city_completeness 0 5
    [⟨"Explore the city attractions", some "X", some 1, some 2, 0⟩] "X" (by decide)
  have hm : buildCityPlan 0 5 "X"
      ((cleanRows [⟨"Explore the city attractions", some "X", some 1, some 2, 0⟩]).filter
        (fun r => decide (r.city = "X")))
      ∈ (buildPlan 0 5 [⟨"Explore the city attractions", some "X", some 1, some 2, 0⟩]).cities :=
    mem_buildPlan_cities.mpr ⟨"X", by decide, rfl⟩
  have h2 := h.2 _ hm (by rfl)
  exact ⟨h.1, h2.1, h2.2.1, h2.2.2⟩

/-- Claim C10: an event is classified flexible exactly when its lowercased
name contains both "explore" and "attractions" as substrings, and every
flexible activity in the emitted plan has duration_days 1 and carries no
start/end dates. -/
theorem flexible_classification :
    (∀ name, is_flexible_event name
      = (strContainsSub (pyLower name) "explore"
          && strContainsSub (pyLower name) "attractions"))
    ∧ ∀ ts te input cp, cp ∈ (buildPlan ts te input).cities →
        ∀ e ∈ cp.events,
          (e.type = EvType.flexible_activity ↔ is_flexible_event e.name = true)
          ∧ (e.type = EvType.flexible_activity →
              e.duration_days = 1 ∧ e.start_date = none ∧ e.end_date = none) := by
  constructor
  · intro name
    simp [is_flexible_event, FLEXIBLE_KEYWORDS]
  · intro ts te input cp hcp e he
    obtain ⟨c, hc, rfl⟩ := mem_buildPlan_cities.mp hcp
    rw [buildCityPlan_events] at he
    have he2 := (List.perm_insertionSort relDesc _).mem_iff.mp he
    unfold output_events at he2
    rcases List.mem_append.mp he2 with hfix | hflex
    · obtain ⟨f, hf, rfl⟩ := List.mem_map.mp hfix
      have hf2 : f ∈ fixedOf _ := (List.perm_insertionSort fixedLE _).mem_iff.mp hf
      have hnf := mem_fixedOf_not_flexible hf2
      refine ⟨iff_of_false (by simp [toOutFixed]) (by simp [toOutFixed, hnf]), ?_⟩
      intro habs
      exact absurd habs (by simp [toOutFixed])
    · obtain ⟨x, hx, rfl⟩ := List.mem_map.mp hflex
      have hfx := mem_flexOf_flexible hx
      exact ⟨iff_of_true rfl hfx, fun _ => ⟨rfl, rfl, rfl⟩⟩

/-- Witness for C10: the flexible activity emitted for a concrete
"Explore Old Delhi Attractions" row. -/
theorem flexible_classification_witness :
    ((⟨"Explore Old Delhi Attractions", EvType.flexible_activity, none, none, 1,
        round4 0⟩ : OEvent).type = EvType.flexible_activity
      ↔ is_flexible_event
          (⟨"Explore Old Delhi Attractions", EvType.flexible_activity, none, none, 1,
            round4 0⟩ : OEvent).name = true)
    ∧ ((⟨"Explore Old Delhi Attractions", EvType.flexible_activity, none, none, 1,
        round4 0⟩ : OEvent).type = EvType.flexible_activity →
        (⟨"Explore Old Delhi Attractions", EvType.flexible_activity, none, none, 1,
          round4 0⟩ : OEvent).duration_days = 1
        ∧ (⟨"Explore Old Delhi Attractions", EvType.flexible_activity, none, none, 1,
            round4 0⟩ : OEvent).start_date = none
        ∧ (⟨"Explore Old Delhi Attractions", EvType.flexible_activity, none, none, 1,
            round4 0⟩ : OEvent).end_date = none) := by
  have hm : buildCityPlan 0 5 "X"
      ((cleanRows [⟨"Explore Old Delhi Attractions", some "X", some 1, some 2, 0⟩]).filter
        (fun r => decide (r.city = "X")))
      ∈ (buildPlan 0 5
          [⟨"Explore Old Delhi Attractions", some "X", some 1, some 2, 0⟩]).cities :=
    mem_buildPlan_cities.mpr ⟨"X", by decide, rfl⟩
  have he : (⟨"Explore Old Delhi Attractions", EvType.flexible_activity, none, none, 1,
      round4 0⟩ : OEvent)
      ∈ (buildCityPlan 0 5 "X"
        ((cleanRows [⟨"Explore Old Delhi Attractions", some "X", some 1, some 2, 0⟩]).filter
          (fun r => decide (r.city = "X")))).events := by
    rw [show (buildCityPlan 0 5 "X"
        ((cleanRows [⟨"Explore Old Delhi Attractions", some "X", some 1, some 2, 0⟩]).filter
          (fun r => decide (r.city = "X")))).events
      = [⟨"Explore Old Delhi Attractions", EvType.flexible_activity, none, none, 1,
          round4 0⟩] from rfl]
    exact List.mem_cons_self _ _
  exact flexible_classification.2 0 5
    [⟨"Explore Old Delhi Attractions", some "X", some 1, some 2, 0⟩] _ hm _ he

end TripPlanner
